import Mathlib

/-!
Verification of the collaborative annotation/chat subsystem of the PDF
assistant application (src/app.py).

The Streamlit script is shallowly embedded as pure Lean functions over an
explicit session-state record:

* Python dict payloads exchanged with the relay (and stored in the session
  lists) become the `Event` structure, one optional field per JSON key the
  program ever writes or reads.  The JSON key "annotation" is modelled by
  the field `annotationText` (the raw key name is not a usable Lean field
  name here); all other keys keep their source names.
* `st.session_state` becomes `SessionState`; Python dicts keyed by page
  index / annotation id become total functions with `[]` / `none` default,
  which is exactly how the script uses them (membership-check-then-insert
  before every access).
* `time.time()` is an external input; each handler takes the current tick
  as a `Nat` parameter `ts`.  (The float-vs-int distinction of the clock is
  irrelevant to every property proved here: the timestamp is only stored,
  echoed, and printed into the id string.)
* The publisher (`websocket.create_connection` / `send` / `close`) is an
  external effect: each handler takes a `publishOk : Bool` oracle saying
  whether that one-shot connection succeeds, and reports in its result
  whether a publish was attempted and which event was handed over.
* `json.loads` on the listener side is an external parser: `on_message`
  receives `Option Event`, `none` standing for a payload on which parsing
  raised (non-object JSON values, which fail at the subsequent `.get`
  attribute access inside the same `try`, are observably identical and are
  folded into `none` as well).
* `st.warning` / `st.error` notices are returned as data; an uncaught
  Python exception aborting the script run is returned in `crash`.
  `st.rerun()` (a fire-and-forget view-refresh request) does not touch any
  state modelled here and is not represented.
-/

namespace PDFChatbotAC

/-- Python `str.strip()`: remove leading and trailing whitespace. -/
def strip (s : String) : String :=
  String.mk (((s.data.dropWhile Char.isWhitespace).reverse.dropWhile
    Char.isWhitespace).reverse)

/-- A JSON-object payload as built and consumed by src/app.py:
`annotation_data` (lines 353-361), `chat_data` (lines 527-532), and the
parsed relay messages in `on_message` (lines 138-153).  A missing key is
`none`.  The field `annotationText` models the JSON key "annotation". -/
structure Event where
  type : Option String := none
  id : Option String := none
  page : Option Int := none
  selected_text : Option String := none
  annotationText : Option String := none
  timestamp : Option Nat := none
  user : Option String := none
  message : Option String := none
deriving DecidableEq

/-- The user-visible non-fatal notices the collaboration handlers emit
(spec taxonomy: ValidationError, PublishError, MalformedEvent). -/
inductive Notice where
  | validationWarning : Notice
  | publishError : Notice
  | malformedEvent : Notice
deriving DecidableEq

/-- An uncaught Python exception that aborts the current script run. -/
inductive PyExn where
  | nameError : PyExn
deriving DecidableEq

/-- The collaboration-relevant part of `st.session_state` (src/app.py
lines 318-325 and 511-512; `username` from lines 194-201). -/
structure SessionState where
  current_page : Int
  username : String
  annotations : Int → List Event
  revision_history : String → Option (List Event)
  collab_annotations : List Event
  collab_chat : List Event

/-- Outcome of one button/message handler: the updated session state, the
notice it showed (if any), the event handed to the relay publisher (if a
publish was attempted), and the uncaught exception (if the run crashed). -/
structure HandlerResult where
  state : SessionState
  notice : Option Notice
  publishAttempt : Option Event
  crash : Option PyExn

/-- Freshly initialized session state (src/app.py lines 194-195, 318-325,
511-512): page 0, no annotations, no history, empty relay logs. -/
def initState (u : String) : SessionState :=
  { current_page := 0
    username := u
    annotations := fun _ => []
    revision_history := fun _ => none
    collab_annotations := []
    collab_chat := [] }

/-- The "Previous Page" button (src/app.py lines 330-332). -/
def prevPageClick (s : SessionState) : SessionState :=
  if 0 < s.current_page then { s with current_page := s.current_page - 1 } else s

/-- The "Next Page" button (src/app.py lines 336-338); `n` is
`len(pdf_pages)`. -/
def nextPageClick (n : Nat) (s : SessionState) : SessionState :=
  if s.current_page < (n : Int) - 1 then
    { s with current_page := s.current_page + 1 }
  else s

/-- The `annotation_data` dict literal (src/app.py lines 353-361). -/
def annotationData (page_index : Int) (ts : Nat)
    (selected_text annotationText u : String) : Event :=
  { type := some "annotation"
    id := some (toString page_index ++ "_" ++ toString ts)
    page := some (page_index + 1)
    selected_text := some selected_text
    annotationText := some annotationText
    timestamp := some ts
    user := some u }

/-- The "Save Annotation" button handler (src/app.py lines 349-379). -/
def saveAnnotationClick (s : SessionState) (ts : Nat)
    (selected_text annotationText : String) (publishOk : Bool) : HandlerResult :=
  if strip selected_text ≠ "" ∧ strip annotationText ≠ "" then
    let page_index := s.current_page
    let e := annotationData page_index ts selected_text annotationText s.username
    let idStr := toString page_index ++ "_" ++ toString ts
    let s1 := { s with annotations :=
      fun p => if p = page_index then s.annotations p ++ [e] else s.annotations p }
    let s2 := { s1 with revision_history :=
      fun k => if k = idStr then some [e] else s1.revision_history k }
    { state := s2
      notice := if publishOk then none else some Notice.publishError
      publishAttempt := some e
      crash := none }
  else
    { state := s
      notice := some Notice.validationWarning
      publishAttempt := none
      crash := none }

/-- The `chat_data` dict literal (src/app.py lines 527-532); note the code
stores the stripped message text. -/
def chatData (ts : Nat) (u text : String) : Event :=
  { type := some "chat"
    timestamp := some ts
    user := some u
    message := some (strip text) }

/-- The "Send Message" button handler (src/app.py lines 525-544), embedded
exactly as written.  Because the append/publish statements are indented at
the level of the `if chat_message.strip():` statement itself (column 12,
lines 534-542) rather than inside its body (column 16), they execute
whenever the button is pressed; with an empty-after-strip message,
`chat_data` was never assigned in this script run and the append raises an
uncaught `NameError`.  The `else:` at column 8 (line 543) belongs to the
button `if`, so the "Please enter a message." warning is not shown on that
path. -/
def sendMessageClick (s : SessionState) (ts : Nat) (text : String)
    (publishOk : Bool) : HandlerResult :=
  if strip text ≠ "" then
    let cd := chatData ts s.username text
    let s1 := { s with collab_chat := s.collab_chat ++ [cd] }
    { state := s1
      notice := if publishOk then none else some Notice.publishError
      publishAttempt := some cd
      crash := none }
  else
    { state := s
      notice := none
      publishAttempt := none
      crash := some PyExn.nameError }

/-- The WebSocket listener's `on_message` callback (src/app.py lines
138-153).  `parsed` is the outcome of `json.loads`: `none` if parsing
raised (the `except` reports the error and the callback returns, leaving
the connection open). -/
def onMessage (s : SessionState) (parsed : Option Event) : HandlerResult :=
  match parsed with
  | none =>
      { state := s
        notice := some Notice.malformedEvent
        publishAttempt := none
        crash := none }
  | some data =>
      if data.type = some "annotation" then
        { state := { s with collab_annotations := s.collab_annotations ++ [data] }
          notice := none
          publishAttempt := none
          crash := none }
      else if data.type = some "chat" then
        { state := { s with collab_chat := s.collab_chat ++ [data] }
          notice := none
          publishAttempt := none
          crash := none }
      else
        { state := s
          notice := none
          publishAttempt := none
          crash := none }

/-- One user or relay interaction with the session. -/
inductive Op where
  | prevPage : Op
  | nextPage : Op
  | save (selected_text annotationText : String) (ts : Nat) (publishOk : Bool) : Op
  | send (text : String) (ts : Nat) (publishOk : Bool) : Op
  | receive (parsed : Option Event) : Op

/-- Apply one interaction to the session state; `n` is the page count of
the loaded document. -/
def stepOp (n : Nat) (s : SessionState) : Op → SessionState
  | Op.prevPage => prevPageClick s
  | Op.nextPage => nextPageClick n s
  | Op.save sel ann ts pub => (saveAnnotationClick s ts sel ann pub).state
  | Op.send text ts pub => (sendMessageClick s ts text pub).state
  | Op.receive m => (onMessage s m).state

/-- Run a sequence of interactions. -/
def runOps (n : Nat) (s : SessionState) : List Op → SessionState
  | [] => s
  | op :: ops => runOps n (stepOp n s op) ops

/-- Whether one interaction at state `s` is a successful (valid-input)
annotation creation on page index `p`: 1 if so, 0 otherwise. -/
def saveContribution (s : SessionState) (op : Op) (p : Int) : Nat :=
  match op with
  | Op.save sel ann _ _ =>
      if strip sel ≠ "" ∧ strip ann ≠ "" ∧ s.current_page = p then 1 else 0
  | _ => 0

/-- Number of successful (valid-input) annotation creations that a run of
`ops` from `s` performs on page index `p`. -/
def savesOnPage (n : Nat) (s : SessionState) : List Op → Int → Nat
  | [], _ => 0
  | op :: ops, p =>
      saveContribution s op p + savesOnPage n (stepOp n s op) ops p

/-! Claim theorems for the individual handlers. -/

/-- C1 (code bug): the spec says `sendMessage` fails with `ValidationError`
(a user-visible warning) on empty-after-trim input.  The code as written
does not: pressing Send Message with a whitespace-only message raises an
uncaught `NameError` (the `chat_data` assignment is the only statement
inside the emptiness check, the append/publish lines sit outside it, and
the warning's `else` attaches to the button check), so no warning is
shown.  State is still unmutated and nothing is published.  This theorem
evaluates the embedded handler at the failing input. -/
theorem sendMessage_empty_input_uncaught_error :
    sendMessageClick (initState "bob") 1700000000 "   " true =
      { state := initState "bob"
        notice := none
        publishAttempt := none
        crash := some PyExn.nameError } := by
  rfl

/-- C2: whenever `selectedText` or `annotationText` is empty or
whitespace-only after trimming, the Save Annotation handler performs no
state mutation at all (same state, so `localAnnotations`,
`revisionHistory` and both relay logs are untouched), attempts no publish,
and reports the validation warning. -/
theorem saveAnnotation_invalid_input_no_mutation
    (s : SessionState) (ts : Nat) (sel ann : String) (pub : Bool)
    (h : strip sel = "" ∨ strip ann = "") :
    saveAnnotationClick s ts sel ann pub =
      { state := s
        notice := some Notice.validationWarning
        publishAttempt := none
        crash := none } := by
  have hc : ¬(strip sel ≠ "" ∧ strip ann ≠ "") := by
    rcases h with h | h <;> simp [h]
  unfold saveAnnotationClick
  rw [if_neg hc]

/-- Witness for C2 at a concrete input: whitespace-only selected text. -/
theorem saveAnnotation_invalid_input_no_mutation_witness :
    saveAnnotationClick (initState "u") 5 " " "note" true =
      { state := initState "u"
        notice := some Notice.validationWarning
        publishAttempt := none
        crash := none } :=
  saveAnnotation_invalid_input_no_mutation (initState "u") 5 " " "note" true
    (Or.inl (by decide))

/-- C4: with non-empty text and a broken transport, the Send Message
handler still appends the newly built ChatEvent to `collab_chat` (the
local append is not rolled back), reports `PublishError` as a non-fatal
notice (no crash), and the publish was attempted with that very event. -/
theorem sendMessage_publish_failure_retains_local
    (s : SessionState) (ts : Nat) (text : String) (h : strip text ≠ "") :
    (sendMessageClick s ts text false).state.collab_chat
        = s.collab_chat ++ [chatData ts s.username text]
    ∧ (sendMessageClick s ts text false).notice = some Notice.publishError
    ∧ (sendMessageClick s ts text false).publishAttempt
        = some (chatData ts s.username text)
    ∧ (sendMessageClick s ts text false).crash = none := by
  simp [sendMessageClick, h]

/-- Witness for C4: sendMessage("hello", "bob") with a broken transport. -/
theorem sendMessage_publish_failure_retains_local_witness :
    (sendMessageClick (initState "bob") 1700000001 "hello" false).state.collab_chat
        = (initState "bob").collab_chat
          ++ [chatData 1700000001 (initState "bob").username "hello"]
    ∧ (sendMessageClick (initState "bob") 1700000001 "hello" false).notice
        = some Notice.publishError
    ∧ (sendMessageClick (initState "bob") 1700000001 "hello" false).publishAttempt
        = some (chatData 1700000001 (initState "bob").username "hello")
    ∧ (sendMessageClick (initState "bob") 1700000001 "hello" false).crash = none :=
  sendMessage_publish_failure_retains_local (initState "bob") 1700000001 "hello"
    (by decide)

/-- C5: a parsed relay message whose type discriminator is "chat" makes
`on_message` append exactly that one event to `collab_chat` and nothing to
`collab_annotations`. -/
theorem onMessage_chat_appends_exactly_one
    (s : SessionState) (e : Event) (h : e.type = some "chat") :
    (onMessage s (some e)).state.collab_chat = s.collab_chat ++ [e]
    ∧ (onMessage s (some e)).state.collab_annotations = s.collab_annotations := by
  simp [onMessage, h]

/-- The example chat relay message of the spec. -/
def aliceMsg : Event :=
  { type := some "chat"
    user := some "alice"
    message := some "hi"
    timestamp := some 1700000000 }

/-- Witness for C5 at the spec's example message. -/
theorem onMessage_chat_appends_exactly_one_witness :
    (onMessage (initState "u") (some aliceMsg)).state.collab_chat
        = (initState "u").collab_chat ++ [aliceMsg]
    ∧ (onMessage (initState "u") (some aliceMsg)).state.collab_annotations
        = (initState "u").collab_annotations :=
  onMessage_chat_appends_exactly_one (initState "u") aliceMsg rfl

/-- C6: on a malformed (non-parseable) relay payload, `on_message` reports
the malformed-event error, leaves the whole session state unchanged (so
neither log changes length), does not crash, and the connection remains
usable: processing any next message behaves exactly as from the original
state. -/
theorem onMessage_malformed_reports_and_no_change (s : SessionState) :
    onMessage s none =
      { state := s
        notice := some Notice.malformedEvent
        publishAttempt := none
        crash := none }
    ∧ ∀ m, onMessage (onMessage s none).state m = onMessage s m := by
  exact ⟨rfl, fun _ => rfl⟩

/-- C7: a parseable relay message whose type discriminator is neither
"annotation" nor "chat" leaves both relay logs unchanged (hence lengths
and contents). -/
theorem onMessage_unrecognized_type_no_change
    (s : SessionState) (e : Event)
    (h1 : e.type ≠ some "annotation") (h2 : e.type ≠ some "chat") :
    (onMessage s (some e)).state.collab_annotations = s.collab_annotations
    ∧ (onMessage s (some e)).state.collab_chat = s.collab_chat := by
  simp [onMessage, h1, h2]

/-- Witness for C7: a message with an unrecognized "presence" type. -/
theorem onMessage_unrecognized_type_no_change_witness :
    (onMessage (initState "u") (some { type := some "presence" })).state.collab_annotations
        = (initState "u").collab_annotations
    ∧ (onMessage (initState "u") (some { type := some "presence" })).state.collab_chat
        = (initState "u").collab_chat :=
  onMessage_unrecognized_type_no_change (initState "u") { type := some "presence" }
    (by decide) (by decide)

/-! Trace-level lemmas: how a whole run of interactions moves the state. -/

/-- On valid input, the Save Annotation handler's effect on the local
annotation map: the fresh event is appended to the current page's list and
every other page is untouched. -/
lemma saveAnnotation_valid_annotations (s : SessionState) (ts : Nat)
    (sel ann : String) (pub : Bool) (hv : strip sel ≠ "" ∧ strip ann ≠ "") :
    (saveAnnotationClick s ts sel ann pub).state.annotations
      = fun p => if p = s.current_page
          then s.annotations p ++ [annotationData s.current_page ts sel ann s.username]
          else s.annotations p := by
  unfold saveAnnotationClick
  rw [if_pos hv]

/-- On valid input, the Save Annotation handler's effect on the revision
history: the fresh id is seeded with the one-element history and every
other key is untouched. -/
lemma saveAnnotation_valid_revision (s : SessionState) (ts : Nat)
    (sel ann : String) (pub : Bool) (hv : strip sel ≠ "" ∧ strip ann ≠ "") :
    (saveAnnotationClick s ts sel ann pub).state.revision_history
      = fun k => if k = toString s.current_page ++ "_" ++ toString ts
          then some [annotationData s.current_page ts sel ann s.username]
          else s.revision_history k := by
  unfold saveAnnotationClick
  rw [if_pos hv]

/-- On invalid input, the Save Annotation handler leaves the state
untouched. -/
lemma saveAnnotation_invalid_state (s : SessionState) (ts : Nat)
    (sel ann : String) (pub : Bool) (hv : ¬(strip sel ≠ "" ∧ strip ann ≠ "")) :
    (saveAnnotationClick s ts sel ann pub).state = s := by
  unfold saveAnnotationClick
  rw [if_neg hv]

/-- Every interaction other than a valid save leaves both the local
annotation map and the revision history untouched. -/
lemma stepOp_preserves_ann_rh (n : Nat) (s : SessionState) (op : Op)
    (h : ∀ sel ann ts pub, op = Op.save sel ann ts pub →
      ¬(strip sel ≠ "" ∧ strip ann ≠ "")) :
    (stepOp n s op).annotations = s.annotations
    ∧ (stepOp n s op).revision_history = s.revision_history := by
  cases op with
  | prevPage =>
      simp only [stepOp]
      unfold prevPageClick
      split <;> exact ⟨rfl, rfl⟩
  | nextPage =>
      simp only [stepOp]
      unfold nextPageClick
      split <;> exact ⟨rfl, rfl⟩
  | save sel ann ts pub =>
      simp only [stepOp]
      rw [saveAnnotation_invalid_state s ts sel ann pub (h sel ann ts pub rfl)]
      exact ⟨rfl, rfl⟩
  | send text ts pub =>
      simp only [stepOp]
      unfold sendMessageClick
      split <;> exact ⟨rfl, rfl⟩
  | receive m =>
      simp only [stepOp]
      unfold onMessage
      cases m with
      | none => exact ⟨rfl, rfl⟩
      | some d =>
          simp only
          split
          · exact ⟨rfl, rfl⟩
          · split <;> exact ⟨rfl, rfl⟩

/-- No interaction ever removes or edits an already-stored local
annotation: one step only ever appends to a page's list. -/
lemma stepOp_annotations_extends (n : Nat) (s : SessionState) (op : Op) (p : Int) :
    s.annotations p <+: (stepOp n s op).annotations p := by
  by_cases hs : ∃ sel ann ts pub, op = Op.save sel ann ts pub
      ∧ strip sel ≠ "" ∧ strip ann ≠ ""
  · obtain ⟨sel, ann, ts, pub, rfl, hv⟩ := hs
    show s.annotations p <+: (saveAnnotationClick s ts sel ann pub).state.annotations p
    rw [saveAnnotation_valid_annotations s ts sel ann pub hv]
    by_cases hp : p = s.current_page
    · simp only [if_pos hp]
      exact List.prefix_append _ _
    · simp only [if_neg hp]
      exact List.prefix_refl _
  · have h : ∀ sel ann ts pub, op = Op.save sel ann ts pub →
        ¬(strip sel ≠ "" ∧ strip ann ≠ "") := by
      intro sel ann ts pub he hv
      exact hs ⟨sel, ann, ts, pub, he, hv⟩
    rw [(stepOp_preserves_ann_rh n s op h).1]

/-- Over a whole run, each page's local annotation list only grows at the
end: the earlier list is a prefix of the later one. -/
lemma runOps_annotations_extends (n : Nat) (ops : List Op) :
    ∀ (s : SessionState) (p : Int),
      s.annotations p <+: (runOps n s ops).annotations p := by
  induction ops with
  | nil => intro s p; exact List.prefix_refl _
  | cons op ops ih =>
      intro s p
      exact (stepOp_annotations_extends n s op p).trans (ih (stepOp n s op) p)

/-- One step grows page `p`'s local annotation list by exactly the number
the step contributes to `savesOnPage`: one for a valid save on page `p`,
zero otherwise. -/
lemma stepOp_annotations_length (n : Nat) (s : SessionState) (op : Op) (p : Int) :
    ((stepOp n s op).annotations p).length
      = (s.annotations p).length + saveContribution s op p := by
  cases op with
  | save sel ann ts pub =>
      by_cases hv : strip sel ≠ "" ∧ strip ann ≠ ""
      · show ((saveAnnotationClick s ts sel ann pub).state.annotations p).length = _
        rw [saveAnnotation_valid_annotations s ts sel ann pub hv]
        by_cases hp : p = s.current_page
        · subst hp
          simp [saveContribution, hv]
        · have hp2 : ¬(strip sel ≠ "" ∧ strip ann ≠ "" ∧ s.current_page = p) := by
            intro hc
            exact hp hc.2.2.symm
          simp [saveContribution, hp, hp2]
      · show ((saveAnnotationClick s ts sel ann pub).state.annotations p).length = _
        rw [saveAnnotation_invalid_state s ts sel ann pub hv]
        have hp2 : ¬(strip sel ≠ "" ∧ strip ann ≠ "" ∧ s.current_page = p) := by
          intro hc
          exact hv ⟨hc.1, hc.2.1⟩
        simp [saveContribution, hp2]
  | prevPage =>
      rw [(stepOp_preserves_ann_rh n s Op.prevPage (by intro _ _ _ _ h; cases h)).1]
      simp [saveContribution]
  | nextPage =>
      rw [(stepOp_preserves_ann_rh n s Op.nextPage (by intro _ _ _ _ h; cases h)).1]
      simp [saveContribution]
  | send text ts pub =>
      rw [(stepOp_preserves_ann_rh n s (Op.send text ts pub)
        (by intro _ _ _ _ h; cases h)).1]
      simp [saveContribution]
  | receive m =>
      rw [(stepOp_preserves_ann_rh n s (Op.receive m)
        (by intro _ _ _ _ h; cases h)).1]
      simp [saveContribution]

/-- Over a run, page `p`'s local annotation list gains exactly one entry
per successful (valid-input) creation performed on page `p`. -/
lemma runOps_annotations_length (n : Nat) (ops : List Op) :
    ∀ (s : SessionState) (p : Int),
      ((runOps n s ops).annotations p).length
        = (s.annotations p).length + savesOnPage n s ops p := by
  induction ops with
  | nil => intro s p; simp [runOps, savesOnPage]
  | cons op ops ih =>
      intro s p
      have h1 := ih (stepOp n s op) p
      have h2 := stepOp_annotations_length n s op p
      show ((runOps n (stepOp n s op) ops).annotations p).length = _
      rw [h1, h2, savesOnPage]
      omega

/-- The per-annotation revision history invariant: every key present in
`revision_history` maps to a one-element sequence holding a copy of the
stored annotation event whose id is that key. -/
def histInv (s : SessionState) : Prop :=
  ∀ idk l, s.revision_history idk = some l →
    ∃ q e, e ∈ s.annotations q ∧ l = [e] ∧ e.id = some idk

/-- Every step preserves the revision-history invariant: a valid save
seeds the history of the fresh id with exactly one copy of the created
event, and no interaction ever appends to or rewrites other histories. -/
lemma stepOp_histInv (n : Nat) (s : SessionState) (op : Op)
    (h : histInv s) : histInv (stepOp n s op) := by
  by_cases hs : ∃ sel ann ts pub, op = Op.save sel ann ts pub
      ∧ strip sel ≠ "" ∧ strip ann ≠ ""
  · obtain ⟨sel, ann, ts, pub, rfl, hv⟩ := hs
    intro idk l hl
    have hrw := saveAnnotation_valid_revision s ts sel ann pub hv
    have hla := saveAnnotation_valid_annotations s ts sel ann pub hv
    show ∃ q e, e ∈ (saveAnnotationClick s ts sel ann pub).state.annotations q
        ∧ l = [e] ∧ e.id = some idk
    simp only [hla]
    replace hl : (saveAnnotationClick s ts sel ann pub).state.revision_history idk
        = some l := hl
    simp only [hrw] at hl
    by_cases hid : idk = toString s.current_page ++ "_" ++ toString ts
    · rw [if_pos hid] at hl
      refine ⟨s.current_page,
        annotationData s.current_page ts sel ann s.username, ?_, ?_, ?_⟩
      · rw [if_pos rfl]
        exact List.mem_append_right _ (List.mem_singleton.mpr rfl)
      · exact (Option.some_inj.mp hl).symm
      · rw [hid]; rfl
    · rw [if_neg hid] at hl
      obtain ⟨q, e, hm, he, hide⟩ := h idk l hl
      refine ⟨q, e, ?_, he, hide⟩
      split
      · exact List.mem_append_left _ hm
      · exact hm
  · have hnv : ∀ sel ann ts pub, op = Op.save sel ann ts pub →
        ¬(strip sel ≠ "" ∧ strip ann ≠ "") := by
      intro sel ann ts pub he hv
      exact hs ⟨sel, ann, ts, pub, he, hv⟩
    obtain ⟨ha, hr⟩ := stepOp_preserves_ann_rh n s op hnv
    intro idk l hl
    rw [hr] at hl
    obtain ⟨q, e, hm, he, hid⟩ := h idk l hl
    exact ⟨q, e, by rw [ha]; exact hm, he, hid⟩

/-- The revision-history invariant holds after any run from any state
satisfying it. -/
lemma runOps_histInv (n : Nat) (ops : List Op) :
    ∀ s : SessionState, histInv s → histInv (runOps n s ops) := by
  induction ops with
  | nil => intro s h; exact h
  | cons op ops ih => intro s h; exact ih (stepOp n s op) (stepOp_histInv n s op h)

/-- The freshly initialized state has an empty revision history, so the
invariant holds vacuously. -/
lemma initState_histInv (u : String) : histInv (initState u) := by
  intro idk l hl
  simp [initState] at hl

/-- The ids of the annotations a run of `ops` from `s` successfully
creates: for each valid-input save, the page index at creation time
concatenated (with an underscore) with the creation timestamp. -/
def createdIds (n : Nat) (s : SessionState) : List Op → List String
  | [] => []
  | op :: ops =>
      (match op with
       | Op.save sel ann ts _ =>
           if strip sel ≠ "" ∧ strip ann ≠ ""
           then [toString s.current_page ++ "_" ++ toString ts]
           else []
       | _ => []) ++ createdIds n (stepOp n s op) ops

/-- A revision-history key holding a one-element history for its id keeps
holding one after any step: no interaction appends to an existing history,
and a colliding later creation overwrites it with the new one-element
copy, never extends it. -/
lemma stepOp_keeps_singleton (n : Nat) (s : SessionState) (op : Op) (idk : String)
    (h : ∃ e : Event, s.revision_history idk = some [e] ∧ e.id = some idk) :
    ∃ e : Event, (stepOp n s op).revision_history idk = some [e]
      ∧ e.id = some idk := by
  by_cases hs : ∃ sel ann ts pub, op = Op.save sel ann ts pub
      ∧ strip sel ≠ "" ∧ strip ann ≠ ""
  · obtain ⟨sel, ann, ts, pub, rfl, hv⟩ := hs
    have hrw := saveAnnotation_valid_revision s ts sel ann pub hv
    show ∃ e : Event, (saveAnnotationClick s ts sel ann pub).state.revision_history idk
        = some [e] ∧ e.id = some idk
    simp only [hrw]
    by_cases hid : idk = toString s.current_page ++ "_" ++ toString ts
    · refine ⟨annotationData s.current_page ts sel ann s.username, ?_, ?_⟩
      · rw [if_pos hid]
      · rw [hid]
        rfl
    · obtain ⟨e, he, hei⟩ := h
      refine ⟨e, ?_, hei⟩
      rw [if_neg hid]
      exact he
  · have hnv : ∀ sel ann ts pub, op = Op.save sel ann ts pub →
        ¬(strip sel ≠ "" ∧ strip ann ≠ "") := by
      intro sel ann ts pub he hv
      exact hs ⟨sel, ann, ts, pub, he, hv⟩
    rw [(stepOp_preserves_ann_rh n s op hnv).2]
    exact h

/-- A revision-history key holding a one-element history for its id keeps
holding one over any whole run. -/
lemma runOps_keeps_singleton (n : Nat) (ops : List Op) :
    ∀ (s : SessionState) (idk : String),
      (∃ e : Event, s.revision_history idk = some [e] ∧ e.id = some idk) →
      ∃ e : Event, (runOps n s ops).revision_history idk = some [e]
        ∧ e.id = some idk := by
  induction ops with
  | nil => intro s idk h; exact h
  | cons op ops ih =>
      intro s idk h
      exact ih (stepOp n s op) idk (stepOp_keeps_singleton n s op idk h)

/-- Every annotation a run creates ends with its id present in the
revision history, mapped to a one-element sequence whose element carries
that id: creation seeds the history and nothing ever appends to it. -/
lemma runOps_created_singleton (n : Nat) (ops : List Op) :
    ∀ (s : SessionState) (idk : String), idk ∈ createdIds n s ops →
      ∃ e : Event, (runOps n s ops).revision_history idk = some [e]
        ∧ e.id = some idk := by
  induction ops with
  | nil => intro s idk h; simp [createdIds] at h
  | cons op ops ih =>
      intro s idk h
      cases op with
      | save sel ann ts pub =>
          simp only [createdIds] at h
          rcases List.mem_append.mp h with h1 | h2
          · by_cases hv : strip sel ≠ "" ∧ strip ann ≠ ""
            · rw [if_pos hv] at h1
              have hid : idk = toString s.current_page ++ "_" ++ toString ts :=
                List.mem_singleton.mp h1
              have hstep : ∃ e : Event,
                  (stepOp n s (Op.save sel ann ts pub)).revision_history idk
                    = some [e] ∧ e.id = some idk := by
                have hrw := saveAnnotation_valid_revision s ts sel ann pub hv
                show ∃ e : Event,
                  (saveAnnotationClick s ts sel ann pub).state.revision_history idk
                    = some [e] ∧ e.id = some idk
                simp only [hrw]
                refine ⟨annotationData s.current_page ts sel ann s.username, ?_, ?_⟩
                · rw [if_pos hid]
                · rw [hid]
                  rfl
              exact runOps_keeps_singleton n ops _ idk hstep
            · rw [if_neg hv] at h1
              simp at h1
          · exact ih _ idk h2
      | prevPage =>
          simp only [createdIds, List.nil_append] at h
          exact ih _ idk h
      | nextPage =>
          simp only [createdIds, List.nil_append] at h
          exact ih _ idk h
      | send text ts pub =>
          simp only [createdIds, List.nil_append] at h
          exact ih _ idk h
      | receive m =>
          simp only [createdIds, List.nil_append] at h
          exact ih _ idk h

/-- C3: over any sequence of interactions from a fresh session, each
page's local annotation list has exactly as many entries as there were
successful (valid-input) annotation creations on that page; every revision
history present is a one-element sequence holding a copy of a stored
annotation event carrying that id; and every created annotation's id is
indeed present in the revision history, mapped to exactly one entry (the
copy of a creation event with that id). -/
theorem createAnnotation_counts_and_single_revision
    (n : Nat) (u : String) (ops : List Op) (p : Int) :
    ((runOps n (initState u) ops).annotations p).length
        = savesOnPage n (initState u) ops p
    ∧ histInv (runOps n (initState u) ops)
    ∧ ∀ idk ∈ createdIds n (initState u) ops,
        ∃ e : Event, (runOps n (initState u) ops).revision_history idk = some [e]
          ∧ e.id = some idk := by
  refine ⟨?_, ?_, ?_⟩
  · have h := runOps_annotations_length n ops (initState u) p
    simpa [initState] using h
  · exact runOps_histInv n ops (initState u) (initState_histInv u)
  · intro idk hidk
    exact runOps_created_singleton n ops (initState u) idk hidk

/-- One step keeps `current_page` inside `[0, n)`: navigation is clamped
at both bounds and no other interaction touches the page index. -/
lemma stepOp_current_page_range (n : Nat) (s : SessionState) (op : Op)
    (h0 : 0 ≤ s.current_page) (h1 : s.current_page < (n : Int)) :
    0 ≤ (stepOp n s op).current_page ∧ (stepOp n s op).current_page < (n : Int) := by
  cases op with
  | prevPage =>
      show 0 ≤ (prevPageClick s).current_page
        ∧ (prevPageClick s).current_page < (n : Int)
      unfold prevPageClick
      by_cases hc : 0 < s.current_page
      · rw [if_pos hc]
        show 0 ≤ s.current_page - 1 ∧ s.current_page - 1 < (n : Int)
        omega
      · rw [if_neg hc]
        exact ⟨h0, h1⟩
  | nextPage =>
      show 0 ≤ (nextPageClick n s).current_page
        ∧ (nextPageClick n s).current_page < (n : Int)
      unfold nextPageClick
      by_cases hc : s.current_page < (n : Int) - 1
      · rw [if_pos hc]
        show 0 ≤ s.current_page + 1 ∧ s.current_page + 1 < (n : Int)
        omega
      · rw [if_neg hc]
        exact ⟨h0, h1⟩
  | save sel ann ts pub =>
      have he : (stepOp n s (Op.save sel ann ts pub)).current_page
          = s.current_page := by
        show (saveAnnotationClick s ts sel ann pub).state.current_page
          = s.current_page
        unfold saveAnnotationClick
        split <;> rfl
      rw [he]
      exact ⟨h0, h1⟩
  | send text ts pub =>
      have he : (stepOp n s (Op.send text ts pub)).current_page
          = s.current_page := by
        show (sendMessageClick s ts text pub).state.current_page = s.current_page
        unfold sendMessageClick
        split <;> rfl
      rw [he]
      exact ⟨h0, h1⟩
  | receive m =>
      have he : (stepOp n s (Op.receive m)).current_page = s.current_page := by
        show (onMessage s m).state.current_page = s.current_page
        unfold onMessage
        cases m with
        | none => rfl
        | some d =>
            simp only
            split
            · rfl
            · split <;> rfl
      rw [he]
      exact ⟨h0, h1⟩

/-- Any run of interactions keeps `current_page` inside `[0, n)`. -/
lemma runOps_current_page_range (n : Nat) (ops : List Op) :
    ∀ s : SessionState, 0 ≤ s.current_page → s.current_page < (n : Int) →
      0 ≤ (runOps n s ops).current_page
        ∧ (runOps n s ops).current_page < (n : Int) := by
  induction ops with
  | nil => intro s h0 h1; exact ⟨h0, h1⟩
  | cons op ops ih =>
      intro s h0 h1
      obtain ⟨g0, g1⟩ := stepOp_current_page_range n s op h0 h1
      exact ih (stepOp n s op) g0 g1

/-- C8: for a document with `n ≥ 1` pages, every sequence of interactions
(in particular every sequence of "previous page" / "next page" clicks)
keeps `currentPageIndex` within `0 ≤ index < n`; moreover "previous page"
at index 0 and "next page" at index `n - 1` leave the state completely
unchanged (clamped, no wraparound). -/
theorem navigation_clamped (n : Nat) (u : String) (ops : List Op) (hn : 1 ≤ n) :
    (0 ≤ (runOps n (initState u) ops).current_page
      ∧ (runOps n (initState u) ops).current_page < (n : Int))
    ∧ (∀ s : SessionState, s.current_page = 0 → prevPageClick s = s)
    ∧ (∀ s : SessionState, s.current_page = (n : Int) - 1 →
        nextPageClick n s = s) := by
  refine ⟨?_, ?_, ?_⟩
  · refine runOps_current_page_range n ops (initState u) ?_ ?_
    · show (0 : Int) ≤ 0
      omega
    · show (0 : Int) < (n : Int)
      omega
  · intro s h
    unfold prevPageClick
    rw [if_neg (show ¬(0 < s.current_page) by rw [h]; omega)]
  · intro s h
    unfold nextPageClick
    rw [if_neg (show ¬(s.current_page < (n : Int) - 1) by rw [h]; omega)]

/-- Witness for C8 at a concrete document: one page, pressing Previous
then Next. -/
theorem navigation_clamped_witness :
    (0 ≤ (runOps 1 (initState "") [Op.prevPage, Op.nextPage]).current_page
      ∧ (runOps 1 (initState "") [Op.prevPage, Op.nextPage]).current_page
          < ((1 : Nat) : Int))
    ∧ (∀ s : SessionState, s.current_page = 0 → prevPageClick s = s)
    ∧ (∀ s : SessionState, s.current_page = ((1 : Nat) : Int) - 1 →
        nextPageClick 1 s = s) :=
  navigation_clamped 1 "" [Op.prevPage, Op.nextPage] (by decide)

/-- C9: a successful save appends to the current page's list exactly the
event built by `annotationData`, whose id is the page index concatenated
(with an underscore) with the creation timestamp and whose `page` field is
the 1-based page number; and afterwards no sequence of interactions ever
edits a stored annotation — each page's list only ever grows at the end,
so the id (and every other field) is fixed at creation. -/
theorem annotation_id_format_and_stability
    (s : SessionState) (ts : Nat) (sel ann : String) (pub : Bool)
    (h1 : strip sel ≠ "") (h2 : strip ann ≠ "") :
    ((saveAnnotationClick s ts sel ann pub).state.annotations s.current_page
        = s.annotations s.current_page
          ++ [annotationData s.current_page ts sel ann s.username])
    ∧ (annotationData s.current_page ts sel ann s.username).id
        = some (toString s.current_page ++ "_" ++ toString ts)
    ∧ (annotationData s.current_page ts sel ann s.username).page
        = some (s.current_page + 1)
    ∧ ∀ (n : Nat) (ops : List Op) (p : Int),
        (saveAnnotationClick s ts sel ann pub).state.annotations p
          <+: (runOps n (saveAnnotationClick s ts sel ann pub).state ops).annotations p := by
  refine ⟨?_, rfl, rfl, ?_⟩
  · rw [saveAnnotation_valid_annotations s ts sel ann pub ⟨h1, h2⟩]
    show (if s.current_page = s.current_page
        then s.annotations s.current_page
          ++ [annotationData s.current_page ts sel ann s.username]
        else s.annotations s.current_page) = _
    rw [if_pos rfl]
  · intro n ops p
    exact runOps_annotations_extends n ops _ p

/-- Witness for C9 at a concrete save on the fresh session. -/
theorem annotation_id_format_and_stability_witness :
    ((saveAnnotationClick (initState "u") 7 "sel" "note" true).state.annotations
          (initState "u").current_page
        = (initState "u").annotations (initState "u").current_page
          ++ [annotationData (initState "u").current_page 7 "sel" "note"
                (initState "u").username])
    ∧ (annotationData (initState "u").current_page 7 "sel" "note"
          (initState "u").username).id
        = some (toString (initState "u").current_page ++ "_" ++ toString 7)
    ∧ (annotationData (initState "u").current_page 7 "sel" "note"
          (initState "u").username).page
        = some ((initState "u").current_page + 1)
    ∧ ∀ (n : Nat) (ops : List Op) (p : Int),
        (saveAnnotationClick (initState "u") 7 "sel" "note" true).state.annotations p
          <+: (runOps n (saveAnnotationClick (initState "u") 7 "sel" "note" true).state
                ops).annotations p :=
  annotation_id_format_and_stability (initState "u") 7 "sel" "note" true
    (by decide) (by decide)

/-! The Advanced Search tab (src/app.py lines 412-424): the term is
compiled with `re.escape` (so it matches as a literal string) and
`re.IGNORECASE`; `finditer` yields the non-overlapping, leftmost-first
matches of that literal pattern; the loop records one entry per match per
page, in `enumerate(pdf_pages)` order. -/

/-- Case-insensitive match of the literal `term` at the head of `text`
(the effect of re.escape plus re.IGNORECASE at one position). -/
def ciHeadMatch : List Char → List Char → Bool
  | [], _ => true
  | _ :: _, [] => false
  | a :: as, b :: bs => (a.toLower == b.toLower) && ciHeadMatch as bs

/-- Start offsets of the matches `pattern.finditer(text)` yields for the
escaped literal `term`, scanning from absolute position `pos`: leftmost
first, each next scan resuming at the previous match's end. -/
def finditerStarts (term : List Char) : List Char → Nat → List Nat
  | [], _ => []
  | c :: rest, pos =>
      if ciHeadMatch term (c :: rest) then
        pos :: finditerStarts term (List.drop (term.length - 1) rest)
          (pos + term.length)
      else
        finditerStarts term rest (pos + 1)
termination_by text _ => text.length
decreasing_by
  · simp only [List.length_cons, List.length_drop]
    omega
  · simp only [List.length_cons]
    omega

/-- Modelled from the claim's words: the total count of case-insensitive
occurrences of the literal term in one text, occurrences counted the
standard way (leftmost first, non-overlapping). -/
def countOccurrences (term : List Char) : List Char → Nat
  | [] => 0
  | c :: rest =>
      if ciHeadMatch term (c :: rest) then
        countOccurrences term (List.drop (term.length - 1) rest) + 1
      else
        countOccurrences term rest
termination_by text => text.length
decreasing_by
  · simp only [List.length_cons, List.length_drop]
    omega
  · simp only [List.length_cons]
    omega

/-- The search loop over `enumerate(pdf_pages)` starting at 0-based page
`pn`: each match contributes the 1-based page number and its start
offset, pages in order. -/
def collectMatches (term : List Char) : List String → Nat → List (Nat × Nat)
  | [], _ => []
  | text :: rest, pn =>
      ((finditerStarts term text.data 0).map (fun i => (pn + 1, i)))
        ++ collectMatches term rest (pn + 1)

/-- The whole search handler: guarded by `search_term.strip()` truthiness;
note the code searches for the unstripped term. -/
def searchMatches (search_term : String) (pdf_pages : List String) :
    List (Nat × Nat) :=
  if strip search_term ≠ "" then collectMatches search_term.data pdf_pages 0
  else []

/-- Modelled from the claim's words: the total count of case-insensitive
occurrences of the literal term across all pages. -/
def totalOccurrences (term : String) (pages : List String) : Nat :=
  (pages.map (fun t => countOccurrences term.data t.data)).sum

/-- The finditer scan reports exactly as many matches as there are
(leftmost, non-overlapping) case-insensitive occurrences of the literal
term in the text. -/
lemma finditerStarts_length (term : List Char) (text : List Char) (pos : Nat) :
    (finditerStarts term text pos).length = countOccurrences term text := by
  induction text, pos using finditerStarts.induct term with
  | case1 pos => simp [finditerStarts, countOccurrences]
  | case2 c rest pos hm ih =>
      rw [finditerStarts, countOccurrences, if_pos hm, if_pos hm]
      simp [ih]
  | case3 c rest pos hm ih =>
      rw [finditerStarts, countOccurrences, if_neg hm, if_neg hm]
      exact ih

/-- Every offset the finditer scan reports is a genuine case-insensitive
occurrence of the literal term at that position of the text. -/
lemma finditerStarts_sound (term : List Char) (hterm : term ≠ [])
    (text : List Char) (pos : Nat) :
    ∀ i ∈ finditerStarts term text pos,
      pos ≤ i ∧ ciHeadMatch term (List.drop (i - pos) text) = true := by
  induction text, pos using finditerStarts.induct term with
  | case1 pos => simp [finditerStarts]
  | case2 c rest pos hm ih =>
      intro i hi
      rw [finditerStarts, if_pos hm] at hi
      rcases List.mem_cons.mp hi with rfl | hi2
      · refine ⟨le_refl i, ?_⟩
        simpa using hm
      · obtain ⟨h1, h2⟩ := ih i hi2
        have hlen : 1 ≤ term.length := by
          cases term with
          | nil => exact absurd rfl hterm
          | cons a as => simp
        refine ⟨by omega, ?_⟩
        rw [List.drop_drop] at h2
        have harith : term.length - 1 + (i - (pos + term.length)) = i - pos - 1 := by
          omega
        rw [harith] at h2
        have hsplit : i - pos = (i - pos - 1) + 1 := by omega
        rw [hsplit, List.drop_succ_cons]
        exact h2
  | case3 c rest pos hm ih =>
      intro i hi
      rw [finditerStarts, if_neg hm] at hi
      obtain ⟨h1, h2⟩ := ih i hi
      refine ⟨by omega, ?_⟩
      have hsplit : i - pos = (i - (pos + 1)) + 1 := by omega
      rw [hsplit, List.drop_succ_cons]
      exact h2

/-- The search loop's total match count is the sum over pages of each
page's occurrence count. -/
lemma collectMatches_length (term : List Char) (pages : List String) :
    ∀ pn, (collectMatches term pages pn).length
      = (pages.map (fun t => countOccurrences term t.data)).sum := by
  induction pages with
  | nil => intro pn; simp [collectMatches]
  | cons t rest ih =>
      intro pn
      simp [collectMatches, finditerStarts_length, ih (pn + 1)]

/-- Every entry the search loop emits for pages starting at 0-based index
`pn` carries a 1-based page number of at least `pn + 1`. -/
lemma collectMatches_fst_lb (term : List Char) (pages : List String) :
    ∀ pn pr, pr ∈ collectMatches term pages pn → pn + 1 ≤ pr.1 := by
  induction pages with
  | nil => intro pn pr h; simp [collectMatches] at h
  | cons t rest ih =>
      intro pn pr h
      rw [collectMatches] at h
      rcases List.mem_append.mp h with h1 | h2
      · obtain ⟨i, hi, rfl⟩ := List.mem_map.mp h1
        exact le_refl _
      · have := ih (pn + 1) pr h2
        omega

/-- Entries produced within one page all carry the same page number, so
they are pairwise ordered. -/
lemma pairwise_same_page (pn : Nat) (l : List Nat) :
    List.Pairwise (fun a b : Nat × Nat => a.1 ≤ b.1)
      (l.map (fun i => (pn + 1, i))) := by
  induction l with
  | nil => simp
  | cons a l ih =>
      rw [List.map_cons]
      refine List.Pairwise.cons ?_ ih
      intro b hb
      obtain ⟨i, hi, rfl⟩ := List.mem_map.mp hb
      exact le_refl _

/-- The search loop reports matches in page order: page numbers are
nondecreasing along the output. -/
lemma collectMatches_pairwise (term : List Char) (pages : List String) :
    ∀ pn, List.Pairwise (fun a b : Nat × Nat => a.1 ≤ b.1)
      (collectMatches term pages pn) := by
  induction pages with
  | nil => intro pn; simp [collectMatches]
  | cons t rest ih =>
      intro pn
      rw [collectMatches]
      refine List.pairwise_append.mpr ⟨pairwise_same_page pn _, ih (pn + 1), ?_⟩
      intro a ha b hb
      obtain ⟨i, hi, rfl⟩ := List.mem_map.mp ha
      have := collectMatches_fst_lb term rest (pn + 1) b hb
      show pn + 1 ≤ b.1
      omega

/-- Every entry the search loop emits names an existing page and a genuine
case-insensitive occurrence of the literal term at the reported offset of
that page's text. -/
lemma collectMatches_sound (term : List Char) (hterm : term ≠ [])
    (pages : List String) :
    ∀ pn pr, pr ∈ collectMatches term pages pn →
      ∃ text, pages.get? (pr.1 - 1 - pn) = some text
        ∧ ciHeadMatch term (text.data.drop pr.2) = true := by
  induction pages with
  | nil => intro pn pr h; simp [collectMatches] at h
  | cons t rest ih =>
      intro pn pr h
      rw [collectMatches] at h
      rcases List.mem_append.mp h with h1 | h2
      · obtain ⟨i, hi, rfl⟩ := List.mem_map.mp h1
        refine ⟨t, ?_, ?_⟩
        · show (t :: rest).get? (pn + 1 - 1 - pn) = some t
          have hz : pn + 1 - 1 - pn = 0 := by omega
          rw [hz]
          rfl
        · have := (finditerStarts_sound term hterm t.data 0 i hi).2
          simpa using this
      · have hlb := collectMatches_fst_lb term rest (pn + 1) pr h2
        obtain ⟨text, hg, hc⟩ := ih (pn + 1) pr h2
        refine ⟨text, ?_, hc⟩
        have hsplit : pr.1 - 1 - pn = (pr.1 - 1 - (pn + 1)) + 1 := by omega
        rw [hsplit]
        show (t :: rest).get? _ = some text
        rw [List.get?_cons_succ]
        exact hg

/-- C10: for every non-empty (after stripping) search term, keyword search
matches the term as a literal string, case-insensitively: the number of
reported matches equals the total count of case-insensitive occurrences of
the literal term across all pages (occurrences counted the standard
leftmost non-overlapping way, as finditer does), the matches are reported
in page order, and every reported match is a genuine case-insensitive
occurrence of the literal term on the reported page at the reported
offset. -/
theorem search_count_order_and_literal
    (search_term : String) (pdf_pages : List String)
    (h : strip search_term ≠ "") :
    (searchMatches search_term pdf_pages).length
        = totalOccurrences search_term pdf_pages
    ∧ List.Pairwise (fun a b : Nat × Nat => a.1 ≤ b.1)
        (searchMatches search_term pdf_pages)
    ∧ ∀ pr ∈ searchMatches search_term pdf_pages,
        ∃ text, pdf_pages.get? (pr.1 - 1) = some text
          ∧ ciHeadMatch search_term.data (text.data.drop pr.2) = true := by
  have hterm : search_term.data ≠ [] := by
    intro hd
    apply h
    have he : search_term = "" := by
      cases search_term with
      | mk l =>
          have hl : l = [] := hd
          rw [hl]
    rw [he]
    rfl
  unfold searchMatches
  rw [if_pos h]
  refine ⟨collectMatches_length search_term.data pdf_pages 0,
    collectMatches_pairwise search_term.data pdf_pages 0, ?_⟩
  intro pr hpr
  have := collectMatches_sound search_term.data hterm pdf_pages 0 pr hpr
  simpa using this

/-- Witness for C10 at a concrete search: term "ab" over two pages. -/
theorem search_count_order_and_literal_witness :
    (searchMatches "ab" ["xAbab", "ABc"]).length
        = totalOccurrences "ab" ["xAbab", "ABc"]
    ∧ List.Pairwise (fun a b : Nat × Nat => a.1 ≤ b.1)
        (searchMatches "ab" ["xAbab", "ABc"])
    ∧ ∀ pr ∈ searchMatches "ab" ["xAbab", "ABc"],
        ∃ text, ["xAbab", "ABc"].get? (pr.1 - 1) = some text
          ∧ ciHeadMatch "ab".data (text.data.drop pr.2) = true :=
  search_count_order_and_literal "ab" ["xAbab", "ABc"] (by decide)

end PDFChatbotAC
